import Mathlib

/-!
Verification of the composefs read-side decoder (src/kernel/lcfs-reader.c).

The in-memory (FUZZING) backing-store variant is embedded: the blob is a
list of byte values, a context holds the validated header and the blob,
and every fallible operation returns an Except over the errno-like error
kind it produces.  The struct declarations live in lcfs.h / lcfs-reader.h,
which are not part of the sources; their record sizes and field layouts
are modelled from the spec (header 16 bytes, inode record 32 bytes,
inode-metadata record 24 bytes) and marked as such below.
-/

set_option maxHeartbeats 1000000
set_option linter.unnecessarySeqFocus false

/-- Error kinds mirroring the negative errno values returned by lcfs-reader.c:
EINVAL, ENOMEM, EFSCORRUPTED, E2BIG, ENOTSUPP. -/
inductive Err where
  | Inval
  | NoMem
  | Corrupted
  | TooBig
  | NotSupp
  deriving DecidableEq

/-- Modulus of the size_t address width (64-bit): check_add_overflow a b
reports an overflow exactly when a + b reaches this value. -/
def twoPow64 : Nat := 18446744073709551616

/-- Modelled from the spec: sizeof(struct lcfs_header_s), the fixed-size
header at blob offset 0 (the spec's concrete scenario gives 16 bytes).
lcfs.h is not among the sources. -/
def sizeofHeader : Nat := 16

/-- Modelled from the spec: sizeof(struct lcfs_inode_s), the fixed-size
inode record (the spec's concrete scenario gives 32 bytes). -/
def sizeofInode : Nat := 32

/-- Modelled from the spec: sizeof(struct lcfs_inode_data_s), the fixed-size
inode-metadata record (the spec's concrete scenario gives 24 bytes). -/
def sizeofInodeData : Nat := 24

/-- Modelled from the spec: sizeof(struct lcfs_dentry_s) under the modelled
layout below — a 12-byte RegionDescriptor naming the entry's filename plus
an 8-byte child inode index. -/
def sizeofDentry : Nat := 20

/-- Modelled from the spec: sizeof(struct lcfs_xattr_header_s) under the
modelled layout below — two 12-byte RegionDescriptors (name and value). -/
def sizeofXattrHeader : Nat := 24

/-- Linux NAME_MAX, the filename-length ceiling used for name buffers. -/
def NAME_MAX : Nat := 255

/-- Linux XATTR_NAME_MAX, the xattr-name-length ceiling. -/
def XATTR_NAME_MAX : Nat := 255

/-- Linux PATH_MAX, the path-length ceiling used by the payload accessor. -/
def PATH_MAX : Nat := 4096

/-- Linux S_IFMT, the file-type bit mask applied to st_mode. -/
def S_IFMT : Nat := 61440

/-- Modelled from the spec: LCFS_VERSION, the expected format version from
the missing lcfs.h header (the concrete value is immaterial here). -/
def LCFS_VERSION : Nat := 1

/-- A RegionDescriptor (struct lcfs_vdata_s): an (offset, length) pair into
the payload region that begins right after the header. -/
structure lcfs_vdata_s where
  off : Nat
  len : Nat
  deriving DecidableEq

/-- The blob header (struct lcfs_header_s): format version plus the two
record sizes the blob self-describes. -/
structure lcfs_header_s where
  version : Nat
  inode_len : Nat
  inode_data_len : Nat
  deriving DecidableEq

/-- A directory entry (struct lcfs_dentry_s): a descriptor for the name
string and the child inode index. -/
structure lcfs_dentry_s where
  name : lcfs_vdata_s
  inode_index : Nat
  deriving DecidableEq

/-- An inode record (struct lcfs_inode_s): index of its metadata record,
descriptor of its xattr table, and the kind-specific union u, which holds a
single RegionDescriptor (u.dir for directories, u.file.payload for files —
both alias the same storage). -/
structure lcfs_inode_s where
  inode_data_index : Nat
  xattrs : lcfs_vdata_s
  u : lcfs_vdata_s
  deriving DecidableEq

/-- An inode-metadata record (struct lcfs_inode_data_s); only st_mode is
consumed by the reader core. -/
structure lcfs_inode_data_s where
  st_mode : Nat
  deriving DecidableEq

/-- An xattr-table record (struct lcfs_xattr_header_s): descriptors of the
attribute's name and value. -/
structure lcfs_xattr_header_s where
  key : lcfs_vdata_s
  value : lcfs_vdata_s
  deriving DecidableEq

/-- The reader context (struct lcfs_context_s, FUZZING variant): the header
copied at creation and the blob itself; descriptor_len is the blob length. -/
structure lcfs_context_s where
  header : lcfs_header_s
  descriptor : List Nat
  deriving DecidableEq

/-- Little-endian interpretation of a byte list as a natural number. -/
def leNat (bs : List Nat) : Nat := bs.foldr (fun b acc => b + 256 * acc) 0

/-- Little-endian encoding of a natural number into w bytes. -/
def leBytes : Nat → Nat → List Nat
  | 0, _ => []
  | w + 1, n => n % 256 :: leBytes w (n / 256)

/-- Modelled from the spec: byte layout of a RegionDescriptor (from the
missing lcfs.h) — a 64-bit offset followed by a 32-bit length, both
little-endian, 12 bytes in all. -/
def parseVdata (bs : List Nat) : lcfs_vdata_s :=
  { off := leNat (bs.take 8), len := leNat ((bs.drop 8).take 4) }

/-- Serialization of a RegionDescriptor under the modelled layout. -/
def vdataBytes (d : lcfs_vdata_s) : List Nat :=
  leBytes 8 d.off ++ leBytes 4 d.len

/-- Modelled from the spec: byte layout of the header (from the missing
lcfs.h) — version, inode_len and inode_data_len as 32-bit little-endian
words followed by 4 bytes of padding, 16 bytes in all. -/
def parseHeader (bs : List Nat) : lcfs_header_s :=
  { version := leNat (bs.take 4)
    inode_len := leNat ((bs.drop 4).take 4)
    inode_data_len := leNat ((bs.drop 8).take 4) }

/-- Modelled from the spec: byte layout of a directory entry (from the
missing lcfs.h) — the name descriptor then a 64-bit child inode index. -/
def parseDentry (bs : List Nat) : lcfs_dentry_s :=
  { name := parseVdata (bs.take 12), inode_index := leNat ((bs.drop 12).take 8) }

/-- Serialization of a directory entry under the modelled layout. -/
def dentryBytes (d : lcfs_dentry_s) : List Nat :=
  vdataBytes d.name ++ leBytes 8 d.inode_index

/-- Modelled from the spec: byte layout of an inode record (from the
missing lcfs.h) — a 64-bit metadata index, the xattr-table descriptor and
the union descriptor, 32 bytes in all. -/
def parseInode (bs : List Nat) : lcfs_inode_s :=
  { inode_data_index := leNat (bs.take 8)
    xattrs := parseVdata ((bs.drop 8).take 12)
    u := parseVdata ((bs.drop 20).take 12) }

/-- Serialization of an inode record under the modelled layout. -/
def inodeBytes (i : lcfs_inode_s) : List Nat :=
  leBytes 8 i.inode_data_index ++ vdataBytes i.xattrs ++ vdataBytes i.u

/-- Modelled from the spec: byte layout of an inode-metadata record (from
the missing lcfs.h) — st_mode as a 32-bit word followed by the remaining
POSIX fields, 24 bytes in all; only st_mode is parsed. -/
def parseInodeData (bs : List Nat) : lcfs_inode_data_s :=
  { st_mode := leNat (bs.take 4) }

/-- Modelled from the spec: byte layout of an xattr-table record (from the
missing lcfs.h) — the name descriptor then the value descriptor. -/
def parseXattrHeader (bs : List Nat) : lcfs_xattr_header_s :=
  { key := parseVdata (bs.take 12), value := parseVdata ((bs.drop 12).take 12) }

/-- Serialization of an xattr-table record under the modelled layout. -/
def xattrHeaderBytes (h : lcfs_xattr_header_s) : List Nat :=
  vdataBytes h.key ++ vdataBytes h.value

/-- lcfs_create_ctx_from_memory: validates the minimum size and the three
self-describing header fields, then captures the header and the blob.
A kzalloc failure (ENOMEM) is not modelled — allocation is assumed to
succeed. -/
def lcfs_create_ctx_from_memory (blob : List Nat) : Except Err lcfs_context_s :=
  if blob.length < sizeofHeader + sizeofInode then .error .Inval
  else
    let h := parseHeader (blob.take sizeofHeader)
    if h.version ≠ LCFS_VERSION then .error .Inval
    else if h.inode_len ≠ sizeofInode then .error .Inval
    else if h.inode_data_len ≠ sizeofInodeData then .error .Inval
    else .ok { header := h, descriptor := blob }

/-- lcfs_create_ctx (the non-FUZZING, file-backed variant): the argument is
the content of the descriptor file.  The pointer-width check passes on the
modelled 64-bit target, a non-positive file size is EINVAL, and the context
header stays zeroed (kzalloc) — no header field is validated. -/
def lcfs_create_ctx (fileBytes : List Nat) : Except Err lcfs_context_s :=
  if fileBytes.length = 0 then .error .Inval
  else .ok { header := ⟨0, 0, 0⟩, descriptor := fileBytes }

/-- lcfs_get_vdata (FUZZING variant): overflow- and bounds-checked region
read.  dest = false is the probe form (C passes a NULL dest and only the
bounds are checked); dest = true copies descriptor.len bytes starting at
sizeofHeader + descriptor.off out of the blob. -/
def lcfs_get_vdata (ctx : lcfs_context_s) (vdata : lcfs_vdata_s) (dest : Bool) :
    Except Err (List Nat) :=
  if twoPow64 ≤ sizeofHeader + vdata.off then .error .Corrupted
  else if ctx.descriptor.length ≤ sizeofHeader + vdata.off then .error .Corrupted
  else if twoPow64 ≤ sizeofHeader + vdata.off + vdata.len then .error .Corrupted
  else if ctx.descriptor.length < sizeofHeader + vdata.off + vdata.len then .error .Corrupted
  else if dest then .ok ((ctx.descriptor.drop (sizeofHeader + vdata.off)).take vdata.len)
  else .ok []

/-- lcfs_get_dentry: fixed-size region read at the given index, then the
(modelled) struct view of the copied bytes. -/
def lcfs_get_dentry (ctx : lcfs_context_s) (index : Nat) : Except Err lcfs_dentry_s :=
  match lcfs_get_vdata ctx ⟨index, sizeofDentry⟩ true with
  | .error e => .error e
  | .ok bs => .ok (parseDentry bs)

/-- lcfs_c_string: the lenp argument models the nullable len out-parameter
(none = NULL, some v = points at a cell holding v); the second component of
the result is the cell's value after the call.  A zero-length descriptor
returns the empty string at once; an oversized length is EINVAL; after a
successful read the final byte must be NUL or the call is EFSCORRUPTED. -/
def lcfs_c_string (ctx : lcfs_context_s) (vdata : lcfs_vdata_s)
    (lenp : Option Nat) (max : Nat) : Except Err (List Nat) × Option Nat :=
  if vdata.len = 0 then (.ok [], lenp)
  else if max < vdata.len then (.error .Inval, lenp)
  else
    match lcfs_get_vdata ctx vdata true with
    | .error e => (.error e, lenp)
    | .ok cstr =>
      if cstr.getD (vdata.len - 1) 0 ≠ 0 then (.error .Corrupted, lenp)
      else (.ok cstr, lenp.map fun _ => vdata.len)

/-- lcfs_get_ino_index: fixed-size region read of an inode record. -/
def lcfs_get_ino_index (ctx : lcfs_context_s) (index : Nat) : Except Err lcfs_inode_s :=
  match lcfs_get_vdata ctx ⟨index, sizeofInode⟩ true with
  | .error e => .error e
  | .ok bs => .ok (parseInode bs)

/-- lcfs_get_root_index: size_t arithmetic (wrapping at the address width)
computing payload_len = descriptor_len - sizeofHeader and then
payload_len - sizeofInode. -/
def lcfs_get_root_index (ctx : lcfs_context_s) : Nat :=
  let payload_len := (ctx.descriptor.length + twoPow64 - sizeofHeader) % twoPow64
  (payload_len + twoPow64 - sizeofInode) % twoPow64

/-- lcfs_dentry_inode: resolves the child inode named by a dentry. -/
def lcfs_dentry_inode (ctx : lcfs_context_s) (node : lcfs_dentry_s) :
    Except Err lcfs_inode_s :=
  lcfs_get_ino_index ctx node.inode_index

/-- lcfs_inode_data: fixed-size region read of the metadata record named by
an inode. -/
def lcfs_inode_data (ctx : lcfs_context_s) (ino : lcfs_inode_s) :
    Except Err lcfs_inode_data_s :=
  match lcfs_get_vdata ctx ⟨ino.inode_data_index, sizeofInodeData⟩ true with
  | .error e => .error e
  | .ok bs => .ok (parseInodeData bs)

/-- Modelled from the spec: lcfs_dentry_ino from the missing lcfs-reader.h
— the child inode index stored in a dentry. -/
def lcfs_dentry_ino (d : lcfs_dentry_s) : Nat := d.inode_index

/-- Overlay write into a caller-owned buffer: the semantics of
memcpy(buf + pos, src, src.length) on a buffer modelled as a list. -/
def memcpyAt (buf : List Nat) (pos : Nat) (src : List Nat) : List Nat :=
  buf.take pos ++ src ++ buf.drop (pos + src.length)

/-- Loop body of lcfs_list_xattrs over entries i, i+1, ... (count entries
remain): read the xattr header, reject an oversized name, read the name,
and — when the capacity is nonzero — check the remaining capacity and
append name + NUL to the output.  copied ≤ size holds on every reachable
state with size ≠ 0, so the truncated subtraction matches the C size_t
subtraction there. -/
def listXattrsLoop (ctx : lcfs_context_s) (xa : lcfs_vdata_s)
    (size : Nat) : Nat → Nat → Nat → List Nat → Except Err (Nat × List Nat)
  | _, 0, copied, names => .ok (copied, names)
  | i, c + 1, copied, names =>
    match lcfs_get_vdata ctx ⟨xa.off + i * sizeofXattrHeader, sizeofXattrHeader⟩ true with
    | .error e => .error e
    | .ok hb =>
      let h := parseXattrHeader hb
      if XATTR_NAME_MAX < h.key.len then .error .Corrupted
      else
        match lcfs_get_vdata ctx h.key true with
        | .error e => .error e
        | .ok xb =>
          if size = 0 then
            listXattrsLoop ctx xa size (i + 1) c (copied + h.key.len + 1) names
          else if size - copied < h.key.len + 1 then .error .TooBig
          else
            listXattrsLoop ctx xa size (i + 1) c (copied + h.key.len + 1)
              (names ++ xb ++ [0])

/-- lcfs_list_xattrs: an empty xattr descriptor yields 0; otherwise the
whole table is bounds-probed and each entry's name (plus a NUL) is
accounted — and, with nonzero capacity, written.  The result is the final
copied count together with the bytes written to the names buffer. -/
def lcfs_list_xattrs (ctx : lcfs_context_s) (ino : lcfs_inode_s) (size : Nat) :
    Except Err (Nat × List Nat) :=
  if ino.xattrs.len = 0 then .ok (0, [])
  else
    match lcfs_get_vdata ctx ino.xattrs false with
    | .error e => .error e
    | .ok _ =>
      listXattrsLoop ctx ino.xattrs size 0 (ino.xattrs.len / sizeofXattrHeader) 0 []

/-- Loop body of lcfs_get_xattr: scan entries for one whose name has the
query's length and bytes; on a match either report the value length
(size = 0), fail with E2BIG when the capacity cannot hold value plus one
byte, or copy the value into the caller buffer and return the matched name
length.  copied stays 0 throughout, as in the C code. -/
def getXattrLoop (ctx : lcfs_context_s) (xa : lcfs_vdata_s) (name : List Nat)
    (value0 : List Nat) (size : Nat) : Nat → Nat → Nat → Except Err (Nat × List Nat)
  | _, 0, copied => .ok (copied, value0)
  | i, c + 1, copied =>
    match lcfs_get_vdata ctx ⟨xa.off + i * sizeofXattrHeader, sizeofXattrHeader⟩ true with
    | .error e => .error e
    | .ok hb =>
      let h := parseXattrHeader hb
      if h.key.len ≠ name.length then getXattrLoop ctx xa name value0 size (i + 1) c copied
      else
        match lcfs_get_vdata ctx h.key true with
        | .error e => .error e
        | .ok xb =>
          if xb ≠ name then getXattrLoop ctx xa name value0 size (i + 1) c copied
          else if size = 0 then .ok (h.value.len, value0)
          else if size - copied < h.value.len + 1 then .error .TooBig
          else
            match lcfs_get_vdata ctx h.value true with
            | .error e => .error e
            | .ok vb => .ok (h.key.len, memcpyAt value0 0 vb)

/-- lcfs_get_xattr: an empty table or an oversized query name is the
not-found result 0; otherwise the table is bounds-probed and scanned.  The
result pairs the returned int (0 not-found, value length for a size-0
discovery call, or the matched name length) with the caller's value buffer
after the call. -/
def lcfs_get_xattr (ctx : lcfs_context_s) (ino : lcfs_inode_s) (name : List Nat)
    (value0 : List Nat) (size : Nat) : Except Err (Nat × List Nat) :=
  if ino.xattrs.len = 0 then .ok (0, value0)
  else if XATTR_NAME_MAX < name.length then .ok (0, value0)
  else
    match lcfs_get_vdata ctx ino.xattrs false with
    | .error e => .error e
    | .ok _ =>
      getXattrLoop ctx ino.xattrs name value0 size 0 (ino.xattrs.len / sizeofXattrHeader) 0

/-- One visitor invocation record: name bytes, name length, child inode
index, and the file-type bits of st_mode. -/
abbrev Visit : Type := List Nat × Nat × Nat × Nat

/-- The fallible per-entry resolution sequence of the lcfs_iterate_dir loop
body: fetch the dentry at table.off + i * sizeofDentry, extract its name
(name_len starts at 0 each iteration), resolve the child inode and its
metadata, and assemble the visitor arguments. -/
def resolveEntry (ctx : lcfs_context_s) (dir : lcfs_vdata_s) (i : Nat) :
    Except Err Visit :=
  match lcfs_get_dentry ctx (dir.off + i * sizeofDentry) with
  | .error e => .error e
  | .ok dentry =>
    match lcfs_c_string ctx dentry.name (some 0) NAME_MAX with
    | (.error e, _) => .error e
    | (.ok nb, lenOut) =>
      match lcfs_dentry_inode ctx dentry with
      | .error e => .error e
      | .ok ino =>
        match lcfs_inode_data ctx ino with
        | .error e => .error e
        | .ok idat =>
          .ok (nb, lenOut.getD 0, lcfs_dentry_ino dentry, Nat.land idat.st_mode S_IFMT)

/-- Loop of lcfs_iterate_dir from entry i with count entries left: resolve
the entry, invoke the visitor, stop without error when it signals stop. -/
def iterateDirLoop {σ : Type} (ctx : lcfs_context_s) (dir : lcfs_vdata_s)
    (cb : σ → List Nat → Nat → Nat → Nat → Bool × σ) : σ → Nat → Nat → Except Err σ
  | s, _, 0 => .ok s
  | s, i, c + 1 =>
    match resolveEntry ctx dir i with
    | .error e => .error e
    | .ok (nb, nl, ci, tb) =>
      let r := cb s nb nl ci tb
      if r.1 then iterateDirLoop ctx dir cb r.2 (i + 1) c else .ok r.2

/-- lcfs_iterate_dir: bounds-probe the whole entry table, then visit the
entries from index first upward; the visitor state replaces the C void
*private. -/
def lcfs_iterate_dir {σ : Type} (ctx : lcfs_context_s) (first : Nat)
    (dir_ino : lcfs_inode_s) (cb : σ → List Nat → Nat → Nat → Nat → Bool × σ)
    (s : σ) : Except Err σ :=
  match lcfs_get_vdata ctx dir_ino.u false with
  | .error e => .error e
  | .ok _ =>
    let entries := dir_ino.u.len / sizeofDentry
    iterateDirLoop ctx dir_ino.u cb s first (entries - first)

/-- A visitor that always continues and records every invocation in table
order. -/
def recordCB (s : List Visit) (nb : List Nat) (nl ci tb : Nat) :
    Bool × List Visit :=
  (true, s ++ [(nb, nl, ci, tb)])

/-- The visit an in-bounds entry resolves to (defaulted when resolution
fails; only used under a hypothesis that resolution succeeds). -/
def entryVisit (ctx : lcfs_context_s) (dir : lcfs_vdata_s) (i : Nat) : Visit :=
  ((resolveEntry ctx dir i).toOption).getD ([], 0, 0, 0)

/-- C strcmp on byte lists, reading the end of a list as a NUL byte. -/
def c_strcmp : List Nat → List Nat → Int
  | [], [] => 0
  | [], b :: _ => 0 - (b : Int)
  | a :: _, [] => (a : Int)
  | a :: as, b :: bs =>
    if a ≠ 0 ∧ a = b then c_strcmp as bs else (a : Int) - (b : Int)

/-- compare_names: the bsearch comparison.  The first component of the
state-passing result is the comparison value, the second the key err field
after the call; a failed dentry or name read records the error and reports
equality (0). -/
def compare_names (ctx : lcfs_context_s) (qname : List Nat)
    (err : Option Err) (b : Nat) : Int × Option Err :=
  match lcfs_get_dentry ctx b with
  | .error e => (0, some e)
  | .ok dentry =>
    match lcfs_c_string ctx dentry.name none NAME_MAX with
    | (.error e, _) => (0, some e)
    | (.ok nm, _) => (c_strcmp qname nm, err)

/-- The Linux lib/bsearch.c binary search, with byte offsets standing for
the element pointers and the comparison threading the key state. -/
def bsearchLoop (cmp : Option Err → Nat → Int × Option Err)
    (err : Option Err) (base num size : Nat) : Option Nat × Option Err :=
  if hn : num = 0 then (none, err)
  else
    let pivot := base + (num / 2) * size
    let r := cmp err pivot
    if r.1 = 0 then (some pivot, r.2)
    else if 0 < r.1 then bsearchLoop cmp r.2 (pivot + size) ((num - 1) / 2) size
    else bsearchLoop cmp r.2 base (num / 2) size
termination_by num
decreasing_by
  · exact Nat.lt_of_le_of_lt (Nat.div_le_self _ _) (by omega)
  · exact Nat.div_lt_self (by omega) (by omega)

/-- lcfs_lookup: bounds-probe the entry table, binary-search it by name,
and return (1, found offset) on a match; a NULL bsearch result or a
recorded comparison error yields (0, unchanged index cell). -/
def lcfs_lookup (ctx : lcfs_context_s) (dir : lcfs_inode_s) (name : List Nat)
    (index0 : Nat) : Except Err (Nat × Nat) :=
  match lcfs_get_vdata ctx dir.u false with
  | .error e => .error e
  | .ok _ =>
    match bsearchLoop (compare_names ctx name) none dir.u.off
        (dir.u.len / sizeofDentry) sizeofDentry with
    | (none, _) => .ok (0, index0)
    | (some _, some _) => .ok (0, index0)
    | (some f, none) => .ok (1, f)

/-- lcfs_get_payload: a zero-length payload descriptor is EINVAL, otherwise
the string accessor runs with the PATH_MAX ceiling. -/
def lcfs_get_payload (ctx : lcfs_context_s) (ino : lcfs_inode_s) :
    Except Err (List Nat) :=
  if ino.u.len = 0 then .error .Inval
  else (lcfs_c_string ctx ino.u none PATH_MAX).1

/-- Reading an element of a take-of-drop slice reads the underlying list. -/
theorem slice_getD (l : List Nat) (s n i : Nat) (hi : i < n) :
    ((l.drop s).take n).getD i 0 = l.getD (s + i) 0 := by
  simp [List.getD_eq_getElem?_getD, List.getElem?_take_of_lt hi, List.getElem?_drop]

/-- A successful copying region read certifies the bounds checks and
returns exactly the described slice of the blob. -/
theorem lcfs_get_vdata_true_ok (ctx : lcfs_context_s) (v : lcfs_vdata_s)
    (bs : List Nat) (h : lcfs_get_vdata ctx v true = .ok bs) :
    sizeofHeader + v.off < ctx.descriptor.length ∧
    sizeofHeader + v.off + v.len ≤ ctx.descriptor.length ∧
    sizeofHeader + v.off + v.len < twoPow64 ∧
    bs = (ctx.descriptor.drop (sizeofHeader + v.off)).take v.len := by
  simp only [lcfs_get_vdata] at h
  split_ifs at h with h1 h2 h3 h4 <;> simp_all

/-- A successful copying region read returns exactly v.len bytes. -/
theorem lcfs_get_vdata_true_ok_length (ctx : lcfs_context_s) (v : lcfs_vdata_s)
    (bs : List Nat) (h : lcfs_get_vdata ctx v true = .ok bs) :
    bs.length = v.len := by
  obtain ⟨-, h2, -, h4⟩ := lcfs_get_vdata_true_ok ctx v bs h
  subst h4
  simp [List.length_take, List.length_drop]
  omega

/-- Claim C1: for every RegionDescriptor d whose region exceeds the blob
length or whose offset/length sum overflows the address width,
lcfs_get_vdata fails with Corrupted for both the probe and the copying
form; the result is the same for every blob of that length, so no blob
byte is accessed and no byte reaches the destination. -/
theorem claim_C1 (ctx : lcfs_context_s) (d : lcfs_vdata_s) (dest : Bool)
    (h : ctx.descriptor.length < sizeofHeader + d.off + d.len ∨
         twoPow64 ≤ sizeofHeader + d.off + d.len) :
    lcfs_get_vdata ctx d dest = .error .Corrupted := by
  simp only [lcfs_get_vdata]
  split_ifs with h1 h2 h3 h4 <;> first | rfl | omega

/-- Witness for claim C1 at a concrete input: an empty blob with a
one-byte descriptor. -/
theorem claim_C1_witness :
    (([] : List Nat).length < sizeofHeader + 0 + 1 ∨
      twoPow64 ≤ sizeofHeader + 0 + 1) ∧
    lcfs_get_vdata ⟨⟨0, 0, 0⟩, []⟩ ⟨0, 1⟩ true = .error .Corrupted :=
  ⟨Or.inl (by decide), claim_C1 ⟨⟨0, 0, 0⟩, []⟩ ⟨0, 1⟩ true (Or.inl (by decide))⟩

/-- Counterexample to claim C2 as stated: a 16-byte blob (header only) and
the zero-length descriptor at offset 0 satisfy header_size + off + len ≤
blob_length with no overflow, yet the read fails with Corrupted, because
the code rejects index ≥ descriptor_len before looking at the length. -/
theorem claim_C2_counterexample :
    sizeofHeader + 0 + 0 ≤ (List.replicate 16 0).length ∧
    sizeofHeader + 0 + 0 < twoPow64 ∧
    lcfs_get_vdata ⟨⟨0, 0, 0⟩, List.replicate 16 0⟩ ⟨0, 0⟩ true = .error .Corrupted :=
  ⟨by decide, by decide, rfl⟩

/-- Claim C2 as amended: when additionally the region's start lies strictly
inside the blob (automatic whenever d.len > 0), the copying read succeeds
and returns exactly d.len bytes — the blob's bytes from position
header_size + d.off. -/
theorem claim_C2 (ctx : lcfs_context_s) (d : lcfs_vdata_s)
    (h1 : sizeofHeader + d.off < ctx.descriptor.length)
    (h2 : sizeofHeader + d.off + d.len ≤ ctx.descriptor.length)
    (h3 : sizeofHeader + d.off + d.len < twoPow64) :
    lcfs_get_vdata ctx d true =
      .ok ((ctx.descriptor.drop (sizeofHeader + d.off)).take d.len) ∧
    ((ctx.descriptor.drop (sizeofHeader + d.off)).take d.len).length = d.len := by
  constructor
  · simp only [lcfs_get_vdata]
    split_ifs with g1 g2 g3 g4 <;> first | rfl | omega
  · simp [List.length_take, List.length_drop]
    omega

/-- Witness for claim C2 at a concrete input: a 17-byte blob and the
descriptor of its single payload byte. -/
theorem claim_C2_witness :
    lcfs_get_vdata ⟨⟨0, 0, 0⟩, List.replicate 16 0 ++ [65]⟩ ⟨0, 1⟩ true =
      .ok (((List.replicate 16 0 ++ [65]).drop (sizeofHeader + 0)).take 1) ∧
    (((List.replicate 16 0 ++ [65]).drop (sizeofHeader + 0)).take 1).length = 1 :=
  claim_C2 ⟨⟨0, 0, 0⟩, List.replicate 16 0 ++ [65]⟩ ⟨0, 1⟩ (by decide) (by decide)
    (by decide)

/-- Counterexample to claim C4 as stated: the file-backed creation path
lcfs_create_ctx returns a usable context for a 48-byte blob whose header
version (0) differs from LCFS_VERSION — it performs no header validation
at all. -/
theorem claim_C4_counterexample :
    (parseHeader ((List.replicate 48 0).take sizeofHeader)).version ≠ LCFS_VERSION ∧
    lcfs_create_ctx (List.replicate 48 0) = .ok ⟨⟨0, 0, 0⟩, List.replicate 48 0⟩ :=
  ⟨by decide, rfl⟩

/-- Claim C4 as amended: only the memory-based creation path validates the
header — lcfs_create_ctx_from_memory fails with EINVAL whenever any of the
format version, inode-record size or inode-metadata-record size declared in
the blob's header mismatches. -/
theorem claim_C4 (blob : List Nat)
    (h : (parseHeader (blob.take sizeofHeader)).version ≠ LCFS_VERSION ∨
         (parseHeader (blob.take sizeofHeader)).inode_len ≠ sizeofInode ∨
         (parseHeader (blob.take sizeofHeader)).inode_data_len ≠ sizeofInodeData) :
    lcfs_create_ctx_from_memory blob = .error .Inval := by
  simp only [lcfs_create_ctx_from_memory]
  split_ifs with h1 h2 h3 h4 <;> first | rfl | tauto

/-- Witness for the amended claim C4 at a concrete input: the empty blob
parses to header version 0 ≠ LCFS_VERSION and creation fails with EINVAL. -/
theorem claim_C4_witness : lcfs_create_ctx_from_memory [] = .error .Inval :=
  claim_C4 [] (Or.inl (by decide))

/-- Claim C7: a zero-length descriptor yields the empty string for every
context (so no blob byte is consulted), and a non-empty descriptor that
reads successfully but whose last blob byte is not NUL fails with
Corrupted. -/
theorem claim_C7 (ctx : lcfs_context_s) (d : lcfs_vdata_s) (lenp : Option Nat)
    (max : Nat) :
    (d.len = 0 → lcfs_c_string ctx d lenp max = (.ok [], lenp)) ∧
    (d.len ≠ 0 → d.len ≤ max → (∃ bs, lcfs_get_vdata ctx d true = .ok bs) →
      ctx.descriptor.getD (sizeofHeader + d.off + d.len - 1) 0 ≠ 0 →
      lcfs_c_string ctx d lenp max = (.error .Corrupted, lenp)) := by
  constructor
  · intro h0
    simp [lcfs_c_string, h0]
  · rintro hne hmax ⟨bs, hbs⟩ hlast
    obtain ⟨hb1, hb2, hb3, hb4⟩ := lcfs_get_vdata_true_ok ctx d bs hbs
    have hcond : bs.getD (d.len - 1) 0 ≠ 0 := by
      rw [hb4, slice_getD ctx.descriptor (sizeofHeader + d.off) d.len (d.len - 1)
        (by omega)]
      have : sizeofHeader + d.off + (d.len - 1) = sizeofHeader + d.off + d.len - 1 := by
        omega
      rw [this]
      exact hlast
    have hcond2 : ¬bs[d.len - 1]?.getD 0 = 0 := by simpa using hcond
    simp [lcfs_c_string, hne, Nat.not_lt.mpr hmax, hbs, hcond2]

/-- Witness for claim C7 at a concrete input: a 17-byte blob whose single
payload byte is 65 ≠ NUL. -/
theorem claim_C7_witness :
    lcfs_c_string ⟨⟨1, 32, 24⟩, List.replicate 16 0 ++ [65]⟩ ⟨0, 1⟩ none 255 =
      (.error .Corrupted, none) :=
  (claim_C7 ⟨⟨1, 32, 24⟩, List.replicate 16 0 ++ [65]⟩ ⟨0, 1⟩ none 255).2
    (by decide) (by decide) ⟨[65], rfl⟩ (by decide)

/-- Claim C10: with a zero-length descriptor the len out-parameter keeps the
caller's prior value, and in general the cell is rewritten — to the
descriptor length, which counts the trailing NUL — only on the non-empty
success path. -/
theorem claim_C10 (ctx : lcfs_context_s) (d : lcfs_vdata_s) (v max : Nat) :
    (d.len = 0 → lcfs_c_string ctx d (some v) max = (.ok [], some v)) ∧
    (∀ r l, lcfs_c_string ctx d (some v) max = (r, l) →
      l = some v ∨ (d.len ≠ 0 ∧ l = some d.len ∧ ∃ bs, r = .ok bs)) := by
  constructor
  · intro h0
    simp [lcfs_c_string, h0]
  · intro r l h
    by_cases h0 : d.len = 0
    · simp [lcfs_c_string, h0] at h
      exact Or.inl h.2.symm
    · by_cases h1 : max < d.len
      · simp [lcfs_c_string, h0, h1] at h
        exact Or.inl h.2.symm
      · cases hg : lcfs_get_vdata ctx d true with
        | error e =>
          simp [lcfs_c_string, h0, h1, hg] at h
          exact Or.inl h.2.symm
        | ok bs =>
          by_cases h2 : bs[d.len - 1]?.getD 0 = 0
          · simp [lcfs_c_string, h0, h1, hg, h2] at h
            exact Or.inr ⟨h0, h.2.symm, bs, h.1.symm⟩
          · simp [lcfs_c_string, h0, h1, hg, h2] at h
            exact Or.inl h.2.symm

/-- Witness for claim C10 at a concrete input: a zero-length descriptor
leaves the prior value 7 in the len cell. -/
theorem claim_C10_witness :
    lcfs_c_string ⟨⟨0, 0, 0⟩, []⟩ ⟨5, 0⟩ (some 7) 10 = (.ok [], some 7) :=
  (claim_C10 ⟨⟨0, 0, 0⟩, []⟩ ⟨5, 0⟩ 7 10).1 rfl

/-- Claim C9: every context successfully created from memory covers at
least one header plus one inode record, and the root index is exactly
(blob_length − header_size) − inode_record_size with no size_t underflow;
adding one inode record at that index stays inside the blob. -/
theorem claim_C9 (blob : List Nat) (ctx : lcfs_context_s)
    (hw : blob.length < twoPow64)
    (h : lcfs_create_ctx_from_memory blob = .ok ctx) :
    sizeofHeader + sizeofInode ≤ ctx.descriptor.length ∧
    lcfs_get_root_index ctx = ctx.descriptor.length - sizeofHeader - sizeofInode ∧
    sizeofHeader + lcfs_get_root_index ctx + sizeofInode ≤ ctx.descriptor.length := by
  simp only [lcfs_create_ctx_from_memory] at h
  split_ifs at h with h1 h2 h3 h4 <;> try exact Except.noConfusion h
  injection h with h5
  subst h5
  simp only [lcfs_get_root_index]
  simp only [sizeofHeader, sizeofInode, twoPow64] at h1 hw ⊢
  omega

/-- The 48-byte blob of the spec's concrete scenario: a valid header
(version 1, inode_len 32, inode_data_len 24) followed by one inode
record. -/
def blob48 : List Nat :=
  [1, 0, 0, 0, 32, 0, 0, 0, 24, 0, 0, 0, 0, 0, 0, 0] ++ List.replicate 32 0

/-- Witness for claim C9 at the spec's concrete scenario: the root index of
the 48-byte blob is 48 − 16 − 32 = 0. -/
theorem claim_C9_witness :
    sizeofHeader + sizeofInode ≤
      (lcfs_context_s.mk ⟨1, 32, 24⟩ blob48).descriptor.length ∧
    lcfs_get_root_index ⟨⟨1, 32, 24⟩, blob48⟩ =
      (lcfs_context_s.mk ⟨1, 32, 24⟩ blob48).descriptor.length - sizeofHeader -
        sizeofInode ∧
    sizeofHeader + lcfs_get_root_index ⟨⟨1, 32, 24⟩, blob48⟩ + sizeofInode ≤
      (lcfs_context_s.mk ⟨1, 32, 24⟩ blob48).descriptor.length :=
  claim_C9 blob48 ⟨⟨1, 32, 24⟩, blob48⟩ (by decide) rfl
/-- The 36-byte blob of the lookup counterexample: a header-sized prefix
followed by one dentry whose name descriptor claims length 300. -/
def blob36 : List Nat :=
  List.replicate 16 0 ++ (List.replicate 8 0 ++ [44, 1, 0, 0] ++ List.replicate 8 0)

theorem claim_C3 (ctx : lcfs_context_s) (dir : lcfs_inode_s) (name : List Nat)
    (index0 : Nat) (f : Option Nat) (e : Err)
    (hprobe : lcfs_get_vdata ctx dir.u false = .ok [])
    (hb : bsearchLoop (compare_names ctx name) none dir.u.off
        (dir.u.len / sizeofDentry) sizeofDentry = (f, some e)) :
    lcfs_lookup ctx dir name index0 = .ok (0, index0) := by
  simp only [lcfs_lookup, hprobe, hb]
  cases f <;> rfl

theorem bsearch36 :
    bsearchLoop (compare_names ⟨⟨1, 32, 24⟩, blob36⟩ [97]) none 0 1 20 =
      (some 0, some Err.Inval) := by
  have hc : compare_names ⟨⟨1, 32, 24⟩, blob36⟩ [97] none 0 = (0, some Err.Inval) := rfl
  unfold bsearchLoop
  simp [hc]

theorem claim_C3_counterexample :
    compare_names ⟨⟨1, 32, 24⟩, blob36⟩ [97] none 0 = (0, some Err.Inval) ∧
    lcfs_lookup ⟨⟨1, 32, 24⟩, blob36⟩ ⟨0, ⟨0, 0⟩, ⟨0, 20⟩⟩ [97] 42 = .ok (0, 42) := by
  constructor
  · rfl
  · have hp : lcfs_get_vdata ⟨⟨1, 32, 24⟩, blob36⟩
        (lcfs_inode_s.mk 0 ⟨0, 0⟩ ⟨0, 20⟩).u false = .ok [] := rfl
    have hb : bsearchLoop (compare_names ⟨⟨1, 32, 24⟩, blob36⟩ [97]) none
        (lcfs_inode_s.mk 0 ⟨0, 0⟩ ⟨0, 20⟩).u.off
        ((lcfs_inode_s.mk 0 ⟨0, 0⟩ ⟨0, 20⟩).u.len / sizeofDentry) sizeofDentry =
        (some 0, some Err.Inval) := bsearch36
    simp only [lcfs_lookup, hp, hb]

theorem claim_C3_witness :
    lcfs_lookup ⟨⟨1, 32, 24⟩, blob36⟩ ⟨0, ⟨0, 0⟩, ⟨0, 20⟩⟩ [97] 7 = .ok (0, 7) :=
  claim_C3 ⟨⟨1, 32, 24⟩, blob36⟩ ⟨0, ⟨0, 0⟩, ⟨0, 20⟩⟩ [97] 7 (some 0) .Inval rfl
    bsearch36
/-- The iterate-dir loop with the recording always-continue visitor visits
exactly the count in-bounds entries from index i on, appending their
resolved visits in table order, provided each of them resolves. -/
theorem iterateDirLoop_record (ctx : lcfs_context_s) (dir : lcfs_vdata_s) :
    ∀ (count i : Nat) (s : List Visit),
      (∀ j, j < count → ∃ v, resolveEntry ctx dir (i + j) = .ok v) →
      iterateDirLoop ctx dir recordCB s i count =
        .ok (s ++ (List.range' i count).map (entryVisit ctx dir)) := by
  intro count
  induction count with
  | zero => intro i s _; simp [iterateDirLoop]
  | succ c ih =>
    intro i s hres
    obtain ⟨v, hv⟩ := hres 0 (Nat.succ_pos c)
    rw [Nat.add_zero] at hv
    have hev : entryVisit ctx dir i = v := by
      simp [entryVisit, hv, Except.toOption]
    simp only [iterateDirLoop, hv]
    obtain ⟨nb, nl, ci, tb⟩ := v
    simp only [recordCB]
    have := ih (i + 1) (s ++ [(nb, nl, ci, tb)]) (fun j hj => by
      have := hres (j + 1) (by omega)
      rwa [show i + (j + 1) = i + 1 + j by omega] at this)
    rw [this]
    rw [List.range'_succ]
    simp [hev]

/-- Claim C5: iterating a directory whose table passes the bounds probe and
whose every entry resolves, with an always-continue visitor, visits exactly
the entries from start_index onward, one visit per entry, in table order. -/
theorem claim_C5 (ctx : lcfs_context_s) (dir_ino : lcfs_inode_s) (k : Nat)
    (hprobe : lcfs_get_vdata ctx dir_ino.u false = .ok [])
    (hres : ∀ i, i < dir_ino.u.len / sizeofDentry →
      ∃ v, resolveEntry ctx dir_ino.u i = .ok v) :
    lcfs_iterate_dir ctx k dir_ino recordCB [] =
      .ok ((List.range' k (dir_ino.u.len / sizeofDentry - k)).map
        (entryVisit ctx dir_ino.u)) := by
  simp only [lcfs_iterate_dir, hprobe]
  have := iterateDirLoop_record ctx dir_ino.u (dir_ino.u.len / sizeofDentry - k) k []
    (fun j hj => hres (k + j) (by omega))
  simpa using this
/-- A size-0 (discovery) run of the xattr-listing loop is independent of the
accumulator state: it errors identically, never writes, and adds the same
total to any starting copied count. -/
theorem listXattrsLoop_size0_shift (ctx : lcfs_context_s) (xa : lcfs_vdata_s) :
    ∀ (count i copied : Nat) (names : List Nat),
      listXattrsLoop ctx xa 0 i count copied names =
        match listXattrsLoop ctx xa 0 i count 0 [] with
        | .error e => .error e
        | .ok (r, _) => .ok (copied + r, names) := by
  intro count
  induction count with
  | zero =>
    intro i copied names
    simp [listXattrsLoop]
  | succ c ih =>
    intro i copied names
    simp only [listXattrsLoop]
    cases h1 : lcfs_get_vdata ctx ⟨xa.off + i * sizeofXattrHeader, sizeofXattrHeader⟩ true with
    | error e => rfl
    | ok hb =>
      by_cases h2 : XATTR_NAME_MAX < (parseXattrHeader hb).key.len
      · simp [h2]
      · simp only [if_neg h2]
        cases h3 : lcfs_get_vdata ctx (parseXattrHeader hb).key true with
        | error e => rfl
        | ok xb =>
          simp only [if_true]
          rw [ih (i + 1) (copied + (parseXattrHeader hb).key.len + 1) names,
            ih (i + 1) (0 + (parseXattrHeader hb).key.len + 1) []]
          cases h4 : listXattrsLoop ctx xa 0 (i + 1) c 0 [] with
          | error e => rfl
          | ok p =>
            obtain ⟨p1, p2⟩ := p
            dsimp only
            rw [Except.ok.injEq, Prod.mk.injEq]
            exact ⟨by omega, rfl⟩

/-- Main characterization of the xattr-listing loop against its size-0
(discovery) run: with a nonzero capacity at least copied + total, the run
succeeds, adds the same total and appends written bytes of exactly that
total length; with a nonzero capacity below copied + total (and copied
within capacity) it fails with E2BIG. -/
theorem listXattrsLoop_main (ctx : lcfs_context_s) (xa : lcfs_vdata_s) :
    ∀ (count i R : Nat),
      listXattrsLoop ctx xa 0 i count 0 [] = .ok (R, []) →
      (∃ w : List Nat, w.length = R ∧ ∀ S cp ns, S ≠ 0 → cp + R ≤ S →
        listXattrsLoop ctx xa S i count cp ns = .ok (cp + R, ns ++ w)) ∧
      (∀ S cp ns, S ≠ 0 → cp ≤ S → S < cp + R →
        listXattrsLoop ctx xa S i count cp ns = .error .TooBig) := by
  intro count
  induction count with
  | zero =>
    intro i R h
    simp only [listXattrsLoop] at h
    rw [Except.ok.injEq, Prod.mk.injEq] at h
    obtain ⟨hR, -⟩ := h
    subst hR
    constructor
    · exact ⟨[], rfl, fun S cp ns _ _ => by simp [listXattrsLoop]⟩
    · intro S cp ns _ h1 h2
      omega
  | succ c ih =>
    intro i R h
    simp only [listXattrsLoop] at h
    cases h1 : lcfs_get_vdata ctx ⟨xa.off + i * sizeofXattrHeader, sizeofXattrHeader⟩ true with
    | error e =>
      rw [h1] at h
      exact Except.noConfusion h
    | ok hb =>
      rw [h1] at h
      dsimp only at h
      by_cases h2 : XATTR_NAME_MAX < (parseXattrHeader hb).key.len
      · rw [if_pos h2] at h
        exact Except.noConfusion h
      · rw [if_neg h2] at h
        cases h3 : lcfs_get_vdata ctx (parseXattrHeader hb).key true with
        | error e =>
          rw [h3] at h
          exact Except.noConfusion h
        | ok xb =>
          rw [h3] at h
          dsimp only at h
          simp only [if_true] at h
          rw [listXattrsLoop_size0_shift ctx xa c (i + 1)
            (0 + (parseXattrHeader hb).key.len + 1) []] at h
          cases h4 : listXattrsLoop ctx xa 0 (i + 1) c 0 [] with
          | error e =>
            rw [h4] at h
            exact Except.noConfusion h
          | ok p =>
            rw [h4] at h
            obtain ⟨p1, p2⟩ := p
            dsimp only at h
            rw [Except.ok.injEq, Prod.mk.injEq] at h
            obtain ⟨hR, -⟩ := h
            have hp2 : p2 = [] := by
              have hs := listXattrsLoop_size0_shift ctx xa c (i + 1) 0 []
              rw [h4] at hs
              dsimp only at hs
              rw [Except.ok.injEq, Prod.mk.injEq] at hs
              exact hs.2
            subst hp2
            obtain ⟨⟨w, hwlen, hwok⟩, htoobig⟩ := ih (i + 1) p1 h4
            have hklen : xb.length = (parseXattrHeader hb).key.len :=
              lcfs_get_vdata_true_ok_length ctx (parseXattrHeader hb).key xb h3
            constructor
            · refine ⟨xb ++ [0] ++ w, by simp [hklen, hwlen]; omega, ?_⟩
              intro S cp ns hS hcap
              simp only [listXattrsLoop, h1, h3]
              rw [if_neg h2, if_neg hS]
              rw [if_neg (by omega : ¬ S - cp < (parseXattrHeader hb).key.len + 1)]
              rw [hwok S (cp + (parseXattrHeader hb).key.len + 1) (ns ++ xb ++ [0]) hS
                (by omega)]
              rw [Except.ok.injEq, Prod.mk.injEq]
              exact ⟨by omega, by simp⟩
            · intro S cp ns hS hcple hlt
              simp only [listXattrsLoop, h1, h3]
              rw [if_neg h2, if_neg hS]
              by_cases h5 : S - cp < (parseXattrHeader hb).key.len + 1
              · rw [if_pos h5]
              · rw [if_neg h5]
                exact htoobig S (cp + (parseXattrHeader hb).key.len + 1)
                  (ns ++ xb ++ [0]) hS (by omega) (by omega)
/-- The 94-byte blob of the enumeration witness: one dentry (name "a",
child inode at payload offset 22), the name bytes, the child inode record
(metadata at payload offset 54) and its 24-byte metadata record with
st_mode 040755. -/
def blob94 : List Nat :=
  List.replicate 16 0 ++
  (vdataBytes ⟨20, 2⟩ ++ leBytes 8 22) ++
  [97, 0] ++
  (leBytes 8 54 ++ vdataBytes ⟨0, 0⟩ ++ vdataBytes ⟨0, 0⟩) ++
  (leBytes 4 16877 ++ List.replicate 20 0)

/-- The context over blob94. -/
def ctx94 : lcfs_context_s := ⟨⟨1, 32, 24⟩, blob94⟩

/-- The directory inode whose entry table is the single dentry of blob94. -/
def dir94 : lcfs_inode_s := ⟨0, ⟨0, 0⟩, ⟨0, 20⟩⟩

/-- Witness for claim C5 at a concrete one-entry directory: the visitor is
invoked exactly once, with name "a", name length 2, child index 22 and the
directory file-type bits. -/
theorem claim_C5_witness :
    lcfs_iterate_dir ctx94 0 dir94 recordCB [] = .ok [([97, 0], 2, 22, 16384)] :=
  (claim_C5 ctx94 dir94 0 rfl (fun i hi => by
    have hi1 : i < 1 := by simpa [dir94, sizeofDentry] using hi
    have hi0 : i = 0 := by omega
    subst hi0
    exact ⟨([97, 0], 2, 22, 16384), rfl⟩)).trans (by rfl)

/-- Claim C6 as amended: from a successful zero-capacity (discovery) call
returning N, a call with capacity exactly N succeeds, writes exactly N
bytes and returns N; and when N ≥ 2, a call with capacity N − 1 fails with
E2BIG.  (For N ≤ 1 the capacity N − 1 is 0, which is the discovery call
itself and succeeds.) -/
theorem claim_C6 (ctx : lcfs_context_s) (ino : lcfs_inode_s) (N : Nat)
    (ns : List Nat) (h0 : lcfs_list_xattrs ctx ino 0 = .ok (N, ns)) :
    (∃ out, lcfs_list_xattrs ctx ino N = .ok (N, out) ∧ out.length = N) ∧
    (2 ≤ N → lcfs_list_xattrs ctx ino (N - 1) = .error .TooBig) := by
  by_cases hz : ino.xattrs.len = 0
  · simp only [lcfs_list_xattrs, if_pos hz] at h0 ⊢
    rw [Except.ok.injEq, Prod.mk.injEq] at h0
    obtain ⟨hN, -⟩ := h0
    subst hN
    exact ⟨⟨[], rfl, rfl⟩, fun hcon => absurd hcon (by omega)⟩
  · simp only [lcfs_list_xattrs, if_neg hz] at h0 ⊢
    cases hp : lcfs_get_vdata ctx ino.xattrs false with
    | error e =>
      rw [hp] at h0
      exact Except.noConfusion h0
    | ok u =>
      rw [hp] at h0
      dsimp only at h0
      dsimp only
      have hns : ns = [] := by
        have hs := listXattrsLoop_size0_shift ctx ino.xattrs
          (ino.xattrs.len / sizeofXattrHeader) 0 0 []
        rw [h0] at hs
        dsimp only at hs
        rw [Except.ok.injEq, Prod.mk.injEq] at hs
        exact hs.2
      subst hns
      obtain ⟨⟨w, hwlen, hwok⟩, htoobig⟩ :=
        listXattrsLoop_main ctx ino.xattrs (ino.xattrs.len / sizeofXattrHeader) 0 N h0
      constructor
      · by_cases hN0 : N = 0
        · subst hN0
          exact ⟨[], h0, rfl⟩
        · refine ⟨w, ?_, hwlen⟩
          have := hwok N 0 [] hN0 (by omega)
          simpa using this
      · intro h2N
        exact htoobig (N - 1) 0 [] (by omega) (by omega) (by omega)

/-- The 41-byte blob of the listing counterexample: one xattr record whose
name descriptor has length 0 (and one spare payload byte so the
zero-length name read stays in bounds). -/
def blob41 : List Nat :=
  List.replicate 16 0 ++ (vdataBytes ⟨24, 0⟩ ++ vdataBytes ⟨0, 0⟩) ++ [0]

/-- Counterexample to claim C6 as stated: with a single empty-named xattr
the discovery call returns N = 1, and the call with capacity N − 1 = 0 is
itself the discovery call — it succeeds with 1 instead of failing with
E2BIG. -/
theorem claim_C6_counterexample :
    lcfs_list_xattrs ⟨⟨1, 32, 24⟩, blob41⟩ ⟨0, ⟨0, 24⟩, ⟨0, 0⟩⟩ 0 = .ok (1, []) ∧
    lcfs_list_xattrs ⟨⟨1, 32, 24⟩, blob41⟩ ⟨0, ⟨0, 24⟩, ⟨0, 0⟩⟩ (1 - 1) = .ok (1, []) ∧
    (Except.ok ((1 : Nat), ([] : List Nat)) : Except Err (Nat × List Nat)) ≠
      .error .TooBig :=
  ⟨rfl, rfl, nofun⟩

/-- The 51-byte blob of the spec's concrete xattr scenario: one xattr
record whose name is "user.test" (9 bytes at payload offset 24) and whose
value is "42" (2 bytes at payload offset 33). -/
def blobC8 : List Nat :=
  List.replicate 16 0 ++
  (vdataBytes ⟨24, 9⟩ ++ vdataBytes ⟨33, 2⟩) ++
  [117, 115, 101, 114, 46, 116, 101, 115, 116] ++ [52, 50]

/-- The context over blobC8. -/
def ctxC8 : lcfs_context_s := ⟨⟨1, 32, 24⟩, blobC8⟩

/-- The inode whose xattr table is the single record of blobC8. -/
def inoC8 : lcfs_inode_s := ⟨0, ⟨0, 24⟩, ⟨0, 0⟩⟩

/-- The query name "user.test" as bytes. -/
def qnameC8 : List Nat := [117, 115, 101, 114, 46, 116, 101, 115, 116]

/-- Witness for the amended claim C6 at the concrete "user.test" table:
discovery returns N = 10, capacity 10 succeeds writing 10 bytes, capacity
9 fails with E2BIG. -/
theorem claim_C6_witness :
    (∃ out, lcfs_list_xattrs ctxC8 inoC8 10 = .ok (10, out) ∧ out.length = 10) ∧
    (2 ≤ 10 → lcfs_list_xattrs ctxC8 inoC8 (10 - 1) = .error .TooBig) :=
  claim_C6 ctxC8 inoC8 10 [] rfl

/-- Counterexample to claim C8 as stated: in the spec's concrete scenario
with output capacity 3 and prior buffer bytes 9,9,9, the call succeeds
returning the matched name's length, but the buffer afterwards holds
"42" followed by the untouched prior byte — not "42" followed by a NUL
terminator. -/
theorem claim_C8_counterexample :
    lcfs_get_xattr ctxC8 inoC8 qnameC8 [9, 9, 9] 3 = .ok (9, [52, 50, 9]) ∧
    ([52, 50, 9] : List Nat) ≠ [52, 50, 0] :=
  ⟨rfl, by decide⟩

/-- Claim C8 as amended: with output capacity 3 the query for "user.test"
succeeds, returns the matched name's length 9 and copies exactly the two
value bytes "42", leaving the third buffer byte untouched (no NUL
terminator is written); with output capacity 2 it fails with E2BIG. -/
theorem claim_C8 (b0 b1 b2 : Nat) :
    lcfs_get_xattr ctxC8 inoC8 qnameC8 [b0, b1, b2] 3 = .ok (9, [52, 50, b2]) ∧
    lcfs_get_xattr ctxC8 inoC8 qnameC8 [b0, b1, b2] 2 = .error .TooBig :=
  ⟨rfl, rfl⟩
